import Mathlib

/-!
Verification of the fx-cashflow-converter core: the forward-points
interpolation engine (`points_interpolator.py`) and the cashflow / P&L
derivation engine (`cashflow_convertor_standard.py`).

Modelling conventions of this shallow embedding:
* Python `Decimal` values are modelled by `ℚ` (the code relies on exact
  decimal arithmetic; every ratio, product and sum it performs is exact
  in this model).
* Python `datetime.date` is modelled by `ℕ`, a day index: comparison of
  dates is `ℕ` comparison and adding one day is `+ 1`.  Day `0` is taken
  to be a Monday, so `d % 7` is Python's `date.weekday()` (0 = Monday …
  6 = Sunday).
* Trade records are modelled after their fields have gone through
  `parse_decimal` / `parse_date_safe`: `amount1`, `amount2`, `ratePrice`
  are the parsed `ℚ` values and the dates are `Option ℕ` (`none` for an
  absent or unparseable date, exactly the `None` those parsers return).
* The interpolator's `points_data` dict is modelled as an association
  list from pair strings to lists of curve points; `current_date = None`
  (Python defaults it to `date.today()`) is modelled by passing the
  ambient "today" date explicitly.
-/

/-- One row of `points_data[pair]` as built by
`PointsInterpolator.load_points_csv` (lines 85-97): the tenor label, the
resolved day count, the bid points and the stored mid
`avg_points = (bid + ask) / 2`. -/
structure CurvePoint where
  tenor : String
  days : Nat
  bid_points : ℚ
  avg_points : ℚ
deriving DecidableEq, Repr

/-- The `TENOR_DAYS` table of `points_interpolator.py` (lines 16-38). -/
def TENOR_DAYS : List (String × Nat) :=
  [("ON", 1), ("TN", 2), ("SP", 0), ("SN", 3), ("1W", 7), ("2W", 14),
   ("3W", 21), ("1M", 30), ("2M", 60), ("3M", 90), ("4M", 120),
   ("5M", 150), ("6M", 180), ("9M", 270), ("15M", 450), ("18M", 540),
   ("1Y", 365), ("2Y", 730), ("3Y", 1095), ("4Y", 1460), ("5Y", 1825)]

/-- `TENOR_DAYS.get(tenor, 0)` (line 90): unknown tenors default to 0. -/
def tenor_days (tenor : String) : Nat :=
  ((TENOR_DAYS.find? (fun e => e.1 == tenor)).map (fun e => e.2)).getD 0

/-- One parsed data row of `load_points_csv` (lines 86-97): stores the
tenor, its day count and `avg_points = (bid_pts + ask_pts) / 2`. -/
def mkCurvePoint (tenor : String) (bid_pts ask_pts : ℚ) : CurvePoint :=
  ⟨tenor, tenor_days tenor, bid_pts, (bid_pts + ask_pts) / 2⟩

/-- The interpolator's `points_data` dictionary: pair → list of points. -/
abbrev Store := List (String × List CurvePoint)

/-- Dictionary lookup `self.points_data[pair]`, `none` when
`pair not in self.points_data`. -/
def lookupPair (store : Store) (pair : String) : Option (List CurvePoint) :=
  (store.find? (fun e => e.1 == pair)).map (fun e => e.2)

/-- The body of the `while current < end_date` loop of
`get_business_days`, recursing on the number of remaining days. -/
def business_days_from (s : Nat) : Nat → Nat
  | 0 => 0
  | n + 1 => (if s % 7 < 5 then 1 else 0) + business_days_from (s + 1) n

/-- `PointsInterpolator.get_business_days` (lines 103-111): counts the
weekdays `d` with `start_date ≤ d < end_date`. -/
def get_business_days (start_date end_date : Nat) : Nat :=
  business_days_from start_date (end_date - start_date)

/-- The sort key relation of `points_list.sort(key=lambda x: x['days'])`. -/
def daysLE (p q : CurvePoint) : Prop := p.days ≤ q.days

instance : DecidableRel daysLE := fun p q => inferInstanceAs (Decidable (p.days ≤ q.days))

instance : IsTotal CurvePoint daysLE := ⟨fun a b => Nat.le_total a.days b.days⟩

instance : IsTrans CurvePoint daysLE := ⟨fun _ _ _ h h' => Nat.le_trans h h'⟩

/-- `points_list.sort(key=lambda x: x['days'])` (line 155).  Python's
sort is stable, and a stable sort by a key is unique as a function, so
insertion sort with `daysLE` computes the same list. -/
def sortPoints (l : List CurvePoint) : List CurvePoint := List.insertionSort daysLE l

/-- The linear-interpolation loop of `interpolate` (lines 165-173): scan
consecutive pairs, and on the first bracketing pair return
`p1.avg + (target - d1)/(d2 - d1) * (p2.avg - p1.avg)`. -/
def findBracket (target : Nat) : List CurvePoint → Option ℚ
  | p1 :: p2 :: rest =>
    if p1.days ≤ target ∧ target ≤ p2.days then
      some (p1.avg_points +
        ((target : ℚ) - (p1.days : ℚ)) / ((p2.days : ℚ) - (p1.days : ℚ)) *
          (p2.avg_points - p1.avg_points))
    else findBracket target (p2 :: rest)
  | _ => none

/-- Lines 158-173 of `interpolate`: the boundary clamps on the sorted
list followed by the bracketing loop. -/
def interpolateCore (points_list : List CurvePoint) (target_days : Nat) : Option ℚ :=
  match points_list.head?, points_list.getLast? with
  | some first, some last =>
    if target_days ≤ first.days then some first.avg_points
    else if last.days ≤ target_days then some last.avg_points
    else findBracket target_days points_list
  | _, _ => none

/-- Line 139-142 of `interpolate`: `calc_date = value_date` when
`current_date < value_date`, else `current_date`. -/
def calcDate (value_date current_date : Nat) : Nat :=
  if current_date < value_date then value_date else current_date

/-- `PointsInterpolator.interpolate` (lines 113-175).  `mat_date` is an
`Option` because the Python guard `if not mat_date` tests for `None`;
`current_date` is the already-defaulted reference date (Python uses
`date.today()` when it is not supplied). -/
def interpolate (store : Store) (pair : String) (value_date : Nat)
    (mat_date : Option Nat) (current_date : Nat) : Option ℚ :=
  match lookupPair store pair with
  | none => none
  | some points_list =>
    match mat_date with
    | none => none
    | some md =>
      if md ≤ calcDate value_date current_date then none
      else if points_list = [] then none
      else interpolateCore (sortPoints points_list)
        (get_business_days (calcDate value_date current_date) md)

/-- Python `str.upper()`, character by character (the currency codes
involved are ASCII). -/
def pyUpper (s : String) : String := ⟨s.data.map Char.toUpper⟩

/-- Python `str.strip()`: drop leading and trailing whitespace. -/
def pyStrip (s : String) : String :=
  ⟨((s.data.dropWhile Char.isWhitespace).reverse.dropWhile Char.isWhitespace).reverse⟩

/-- Python `str.split(sep)` for a one-character separator, on the
character list: `''.split(sep)` is `['']`. -/
def splitCharAux (sep : Char) : List Char → List (List Char)
  | [] => [[]]
  | c :: cs =>
    let r := splitCharAux sep cs
    if c == sep then [] :: r
    else
      match r with
      | [] => [[c]]
      | h :: t => (c :: h) :: t

/-- Python `str.split(sep)` for a one-character separator. -/
def pySplitChar (sep : Char) (s : String) : List String :=
  (splitCharAux sep s.data).map (fun cs => ⟨cs⟩)

/-- Python `c in s` membership test for a single character. -/
def pyContains (s : String) (c : Char) : Bool := s.data.contains c

/-- `points_divisor_by_pair` (lines 178-197 of `points_interpolator.py`). -/
def points_divisor_by_pair (pair : String) : Nat :=
  if pair = "" ∨ pyContains pair '/' = false then 10000
  else if pyStrip (pyUpper ((pySplitChar '/' pair).headD "")) = "JPY" then 1000000
  else 10000

/-- `parse_pair` (lines 46-51 of `cashflow_convertor_standard.py`). -/
def parse_pair (pair : String) : String × String :=
  match pySplitChar '/' (pyStrip pair) with
  | [a, b] => (pyStrip (pyUpper a), pyStrip (pyUpper b))
  | _ => (pyStrip (pyUpper pair), "")

/-- `is_jpy_base` (lines 54-57 of `cashflow_convertor_standard.py`). -/
def is_jpy_base (pair : String) : Bool := (parse_pair pair).1 == "JPY"

/-- Python `Decimal.quantize(Decimal(1), rounding=ROUND_HALF_UP)`:
round to the nearest integer with ties away from zero, i.e.
`sign(q) * floor(|q| + 1/2)`.  With `|q| = a / b` in lowest terms,
`floor(a / b + 1 / 2) = (2 * a + b) / (2 * b)` in floored natural
division. -/
def roundHalfUp (q : ℚ) : ℤ :=
  let m : Nat := (2 * q.num.natAbs + q.den) / (2 * q.den)
  if q < 0 then -(m : ℤ) else (m : ℤ)

/-- `normalize_cashflow` (lines 29-33): JPY amounts are rounded
half-up to whole units, all other currencies pass through unchanged. -/
def normalize_cashflow (ccy : String) (amt : ℚ) : ℚ :=
  if ccy = "JPY" then (roundHalfUp amt : ℚ) else amt

/-- A trade record after field parsing: `amount1`, `amount2`,
`ratePrice` are the `parse_decimal` results and the two dates the
`parse_date_safe` results of the corresponding CSV columns. -/
structure Trade where
  dealId : String
  dealType : String
  security : String
  amount1 : ℚ
  amount2 : ℚ
  valueDate : Option Nat
  matDate : Option Nat
  ratePrice : ℚ
deriving DecidableEq, Repr

/-- One cashflow record as produced by the three calculators. -/
structure CashflowEntry where
  date : Nat
  currency : String
  cashflow : ℚ
  tradeId : String
  type : String
deriving DecidableEq, Repr

/-- `calculate_swap_cashflows` (lines 87-148).  `today` is the ambient
current date that `interpolate` defaults to; `interpO = none` models
running without a points interpolator. -/
def calculate_swap_cashflows (today : Nat) (interpO : Option Store) (t : Trade) :
    List CashflowEntry :=
  match t.valueDate, t.matDate with
  | some value_date, some mat_date =>
    if t.amount1 = 0 then []
    else
      let base_ccy := (parse_pair t.security).1
      let quote_ccy := (parse_pair t.security).2
      let near_rate := |t.amount2 / t.amount1|
      let divisor : ℚ := (points_divisor_by_pair t.security : ℚ)
      let far_rate :=
        match interpO with
        | some store =>
          match interpolate store t.security value_date (some mat_date) today with
          | some curve_pts => near_rate + curve_pts / divisor
          | none => near_rate + t.ratePrice / divisor
        | none => near_rate + t.ratePrice / divisor
      let far_amount2 := t.amount1 * far_rate
      [⟨value_date, base_ccy, normalize_cashflow base_ccy t.amount1, t.dealId, "FX Swap - Near"⟩,
       ⟨value_date, quote_ccy, normalize_cashflow quote_ccy t.amount2, t.dealId, "FX Swap - Near"⟩,
       ⟨mat_date, base_ccy, normalize_cashflow base_ccy (-t.amount1), t.dealId, "FX Swap - Far"⟩,
       ⟨mat_date, quote_ccy, normalize_cashflow quote_ccy far_amount2, t.dealId, "FX Swap - Far"⟩]
  | _, _ => []

/-- `calculate_spot_cashflows` (lines 151-180): only `value_date` is
required; `amount1` is not checked. -/
def calculate_spot_cashflows (t : Trade) : List CashflowEntry :=
  match t.valueDate with
  | none => []
  | some value_date =>
    let base_ccy := (parse_pair t.security).1
    let quote_ccy := (parse_pair t.security).2
    [⟨value_date, base_ccy, normalize_cashflow base_ccy t.amount1, t.dealId, "Spot"⟩,
     ⟨value_date, quote_ccy, normalize_cashflow quote_ccy t.amount2, t.dealId, "Spot"⟩]

/-- `calculate_forward_cashflows` (lines 183-212): only `mat_date` is
required; `amount1` is not checked. -/
def calculate_forward_cashflows (t : Trade) : List CashflowEntry :=
  match t.matDate with
  | none => []
  | some mat_date =>
    let base_ccy := (parse_pair t.security).1
    let quote_ccy := (parse_pair t.security).2
    [⟨mat_date, base_ccy, normalize_cashflow base_ccy t.amount1, t.dealId, "Outright Forward"⟩,
     ⟨mat_date, quote_ccy, normalize_cashflow quote_ccy t.amount2, t.dealId, "Outright Forward"⟩]

/-- The non-empty dict `{'Currency': ..., 'P&L': ...}` that
`calculate_pnl` returns when the required fields are present. -/
structure PnLEntry where
  currency : String
  pnl : ℚ
deriving DecidableEq, Repr

/-- `calculate_pnl` (lines 215-238): `none` models the empty dict
returned when a date is missing or `amount1 == 0`; otherwise the dict
is returned with `P&L = 0` unless interpolation produced a value. -/
def calculate_pnl (today : Nat) (interpO : Option Store) (t : Trade) : Option PnLEntry :=
  match t.valueDate, t.matDate with
  | some value_date, some mat_date =>
    if t.amount1 = 0 then none
    else
      let quote_ccy := (parse_pair t.security).2
      let divisor : ℚ := (points_divisor_by_pair t.security : ℚ)
      let pnl :=
        match interpO with
        | some store =>
          match interpolate store t.security value_date (some mat_date) today with
          | some curve_pts => -t.amount1 * (curve_pts - t.ratePrice) / divisor
          | none => 0
        | none => 0
      some ⟨quote_ccy, pnl⟩
  | _, _ => none

/-- `all_pnl[ccy] = all_pnl.get(ccy, Decimal(0)) + pnl` on an
insertion-ordered dict, modelled as an association list. -/
def upsertPnl (m : List (String × ℚ)) (k : String) (v : ℚ) : List (String × ℚ) :=
  match m with
  | [] => [(k, v)]
  | (k', v') :: rest => if k' = k then (k', v' + v) :: rest else (k', v') :: upsertPnl rest k v

/-- The P&L accumulation of `main` (lines 424-443): for each trade of
deal type `FX Swap`, `calculate_pnl` is called and, when the returned
dict is non-empty, its `P&L` is added under its `Currency` key. -/
def accumulate_pnl (today : Nat) (interpO : Option Store) (trades : List Trade) :
    List (String × ℚ) :=
  trades.foldl
    (fun all_pnl t =>
      if pyStrip t.dealType = "FX Swap" then
        match calculate_pnl today interpO t with
        | some e => upsertPnl all_pnl e.currency e.pnl
        | none => all_pnl
      else all_pnl)
    []

/-- `aggregated[key] = aggregated.get(key, Decimal(0)) + cf['Cashflow']`
on the insertion-ordered dict of `aggregate_cashflows`. -/
def upsertAgg (m : List ((Nat × String) × ℚ)) (k : Nat × String) (v : ℚ) :
    List ((Nat × String) × ℚ) :=
  match m with
  | [] => [(k, v)]
  | (k', v') :: rest => if k' = k then (k', v' + v) :: rest else (k', v') :: upsertAgg rest k v

/-- `aggregate_cashflows` (lines 241-247): sum entries by
`(date, currency)`. -/
def aggregate_cashflows (cashflows : List CashflowEntry) : List ((Nat × String) × ℚ) :=
  cashflows.foldl (fun agg cf => upsertAgg agg (cf.date, cf.currency) cf.cashflow) []

/-- The spec's direct linear-interpolation formula
`p0 + (target - d0) / (d1 - d0) * (p1 - p0)`, written from the spec's
words for comparison with what `interpolate` computes. -/
def linear_interp_formula (d0 d1 : Nat) (q0 q1 : ℚ) (target : Nat) : ℚ :=
  q0 + ((target : ℚ) - (d0 : ℚ)) / ((d1 : ℚ) - (d0 : ℚ)) * (q1 - q0)

theorem calcDate_eq_max (vd cur : Nat) : calcDate vd cur = max vd cur := by
  unfold calcDate
  rcases Nat.lt_or_ge cur vd with h | h
  · rw [if_pos h, Nat.max_eq_left (Nat.le_of_lt h)]
  · rw [if_neg (Nat.not_lt.mpr h), Nat.max_eq_right h]

theorem sortPoints_sorted (l : List CurvePoint) : List.Sorted daysLE (sortPoints l) :=
  List.sorted_insertionSort daysLE l

theorem sortPoints_eq_of_sorted {l : List CurvePoint} (h : List.Sorted daysLE l) :
    sortPoints l = l :=
  h.insertionSort_eq

theorem head_days_le {a : CurvePoint} {l : List CurvePoint}
    (hs : List.Sorted daysLE (a :: l)) {p : CurvePoint} (hp : p ∈ a :: l) :
    a.days ≤ p.days := by
  rcases List.mem_cons.mp hp with rfl | hp
  · exact Nat.le_refl _
  · exact (List.sorted_cons.mp hs).1 p hp

theorem days_le_getLast (l : List CurvePoint) (hne : l ≠ [])
    (hs : List.Sorted daysLE l) (p : CurvePoint) (hp : p ∈ l) :
    p.days ≤ (l.getLast hne).days := by
  induction l with
  | nil => exact absurd rfl hne
  | cons a t ih =>
    rcases List.sorted_cons.mp hs with ⟨ha, hs'⟩
    cases t with
    | nil =>
      rcases List.mem_cons.mp hp with rfl | hp
      · exact Nat.le_refl _
      · cases hp
    | cons b t' =>
      rw [List.getLast_cons (List.cons_ne_nil b t')]
      rcases List.mem_cons.mp hp with rfl | hp
      · exact ha _ (List.getLast_mem _)
      · exact ih (List.cons_ne_nil b t') hs' hp

theorem interpolate_unfold {store : Store} {pair : String} {l : List CurvePoint}
    (hl : lookupPair store pair = some l) (vd cur md : Nat)
    (hmd : ¬ md ≤ calcDate vd cur) (hne : ¬ l = []) :
    interpolate store pair vd (some md) cur =
      interpolateCore (sortPoints l) (get_business_days (calcDate vd cur) md) := by
  unfold interpolate
  rw [hl]
  simp only [if_neg hmd, if_neg hne]

/-- C4: `interpolate` returns `none` whenever the pair is unknown to the
store, or the maturity date is absent, or the maturity date is not
strictly after `computationDate = max valueDate referenceDate` (the
reference date being the ambient current date when not supplied). -/
theorem interpolate_none_cases (store : Store) (pair : String) (vd cur : Nat) :
    (lookupPair store pair = none →
      ∀ mdo : Option Nat, interpolate store pair vd mdo cur = none)
    ∧ interpolate store pair vd none cur = none
    ∧ ∀ md : Nat, md ≤ max vd cur → interpolate store pair vd (some md) cur = none := by
  refine ⟨?_, ?_, ?_⟩
  · intro h mdo
    unfold interpolate
    rw [h]
  · unfold interpolate
    cases lookupPair store pair <;> rfl
  · intro md hmd
    unfold interpolate
    cases lookupPair store pair with
    | none => rfl
    | some l =>
      have h : md ≤ calcDate vd cur := by rw [calcDate_eq_max]; exact hmd
      simp only [if_pos h]

/-- C4 witness: the three `none` cases at concrete inputs (unknown pair,
absent maturity date, maturity date at or before the computation date). -/
theorem interpolate_none_cases_witness :
    interpolate [] "EURUSD" 7 (some 3) 2 = none
    ∧ interpolate [] "EURUSD" 7 none 2 = none
    ∧ interpolate [("EURUSD", [⟨"SP", 0, 7, 7⟩])] "EURUSD" 7 (some 5) 2 = none :=
  ⟨(interpolate_none_cases [] "EURUSD" 7 2).1 rfl (some 3),
   (interpolate_none_cases [] "EURUSD" 7 2).2.1,
   (interpolate_none_cases [("EURUSD", [⟨"SP", 0, 7, 7⟩])] "EURUSD" 7 2).2.2 5 (by decide)⟩

/-- C5 counterexample: a curve holding only the SP sample (horizon 0,
at or before the computation date) does not make `interpolate` fail —
the sample is not excluded, and its value is returned via the clamp. -/
theorem interpolate_sp_only_cex :
    interpolate [("USDCNY", [⟨"SP", 0, 7, 7⟩])] "USDCNY" 0 (some 3) 0 = some 7 := by
  decide

/-- C5 (amended): `interpolate` applies no horizon-based candidate
filter: every loaded sample participates, and for a curve whose only
sample is the SP row at horizon 0 (or any single sample), a request
with maturity strictly after the computation date returns that sample's
mid-points value rather than `none`. -/
theorem interpolate_singleton (store : Store) (pair : String) (vd cur md : Nat)
    (p : CurvePoint) (hl : lookupPair store pair = some [p])
    (hmd : max vd cur < md) :
    interpolate store pair vd (some md) cur = some p.avg_points := by
  have hmd' : ¬ md ≤ calcDate vd cur := by rw [calcDate_eq_max]; omega
  rw [interpolate_unfold hl vd cur md hmd' (by simp)]
  have hs : sortPoints [p] = [p] := rfl
  rw [hs]
  unfold interpolateCore
  by_cases h : get_business_days (calcDate vd cur) md ≤ p.days
  · simp [h]
  · simp [h, Nat.le_of_not_le h]

/-- C5 witness: the amended statement at a concrete SP-only curve. -/
theorem interpolate_singleton_witness :
    interpolate [("USDJPY", [⟨"SP", 0, -3, -3⟩])] "USDJPY" 1 (some 9) 4 = some (-3) :=
  interpolate_singleton _ "USDJPY" 1 4 9 ⟨"SP", 0, -3, -3⟩ rfl (by decide)

/-- C6 counterexample: for computation date 0 (a Monday) and maturity
date 1 (the next day), `get_business_days` returns 1, while the number
of weekdays strictly between the two dates is 0 — the code counts the
computation date itself. -/
theorem business_days_cex :
    get_business_days 0 1 = 1
    ∧ ((Finset.Ioo (0 : Nat) 1).filter (fun d => d % 7 < 5)).card = 0 :=
  ⟨by decide, by decide⟩

theorem business_days_from_eq (n : Nat) : ∀ s : Nat,
    business_days_from s n = ((Finset.Ico s (s + n)).filter (fun d => d % 7 < 5)).card := by
  induction n with
  | zero => intro s; simp [business_days_from]
  | succ n ih =>
    intro s
    have hins : Finset.Ico s (s + (n + 1)) = insert s (Finset.Ico (s + 1) (s + 1 + n)) := by
      ext x
      simp only [Finset.mem_Ico, Finset.mem_insert]
      omega
    rw [business_days_from, hins, Finset.filter_insert, ih (s + 1)]
    by_cases h : s % 7 < 5
    · rw [if_pos h, if_pos h, Finset.card_insert_of_not_mem]
      · omega
      · intro hmem
        have h1 := (Finset.mem_Ico.mp (Finset.mem_filter.mp hmem).1).1
        omega
    · rw [if_neg h, if_neg h]
      omega

/-- C6 (amended): the business-day horizon equals the number of
weekdays `d` in the half-open range `computationDate ≤ d <
maturityDate`: the computation date itself is counted when it is a
weekday, and the maturity date is never counted. -/
theorem get_business_days_eq_weekday_card (s e : Nat) :
    get_business_days s e = ((Finset.Ico s e).filter (fun d => d % 7 < 5)).card := by
  unfold get_business_days
  rcases Nat.le_total s e with h | h
  · have he : s + (e - s) = e := by omega
    rw [business_days_from_eq, he]
  · have h0 : e - s = 0 := by omega
    have hico : Finset.Ico s e = ∅ := Finset.Ico_eq_empty (by omega)
    rw [h0, hico]
    simp [business_days_from]

theorem head_days_le_mem (l : List CurvePoint) (hne : l ≠ [])
    (hs : List.Sorted daysLE l) (p : CurvePoint) (hp : p ∈ l) :
    (l.head hne).days ≤ p.days := by
  cases l with
  | nil => exact absurd rfl hne
  | cons a t => exact head_days_le hs hp

theorem findBracket_skip (target : Nat) (p0 p1 : CurvePoint) (post : List CurvePoint)
    (hp0 : p0.days < target) (hp1 : target ≤ p1.days) :
    ∀ pre : List CurvePoint, (∀ q ∈ pre, q.days ≤ p0.days) →
      findBracket target (pre ++ p0 :: p1 :: post) =
        some (linear_interp_formula p0.days p1.days p0.avg_points p1.avg_points target) := by
  intro pre
  induction pre with
  | nil =>
    intro _
    simp only [List.nil_append, findBracket]
    rw [if_pos ⟨Nat.le_of_lt hp0, hp1⟩]
    rfl
  | cons q pre ih =>
    intro hq
    cases pre with
    | nil =>
      simp only [List.cons_append, List.nil_append, findBracket]
      rw [if_neg (fun h => absurd h.2 (Nat.not_le.mpr hp0))]
      exact ih (fun x hx => absurd hx (List.not_mem_nil x))
    | cons b pre' =>
      have hb : b.days ≤ p0.days := hq b (by simp)
      simp only [List.cons_append, findBracket]
      rw [if_neg (fun h => absurd h.2 (Nat.not_le.mpr (Nat.lt_of_le_of_lt hb hp0)))]
      have := ih (fun x hx => hq x (List.mem_cons_of_mem q hx))
      simpa only [List.cons_append] using this

/-- C2: for a known pair whose curve, sorted ascending by horizon,
decomposes as `pre ++ [p0, p1] ++ post` with the target horizon strictly
between the adjacent samples `p0` and `p1`, `interpolate` returns
exactly the direct evaluation of
`p0 + (target - d0) / (d1 - d0) * (p1 - p0)` in exact rational
arithmetic (each sample's value being the stored bid/ask mid). -/
theorem interpolate_linear (store : Store) (pair : String) (vd cur md : Nat)
    (l pre post : List CurvePoint) (p0 p1 : CurvePoint)
    (hl : lookupPair store pair = some l)
    (hsort : List.Sorted daysLE l)
    (hdec : l = pre ++ p0 :: p1 :: post)
    (hmd : max vd cur < md)
    (h0 : p0.days < get_business_days (max vd cur) md)
    (h1 : get_business_days (max vd cur) md < p1.days) :
    interpolate store pair vd (some md) cur =
      some (linear_interp_formula p0.days p1.days p0.avg_points p1.avg_points
        (get_business_days (max vd cur) md)) := by
  have hcalc : calcDate vd cur = max vd cur := calcDate_eq_max vd cur
  have hmd' : ¬ md ≤ calcDate vd cur := by rw [hcalc]; exact Nat.not_le.mpr hmd
  have hne : l ≠ [] := by rw [hdec]; simp
  have hp0mem : p0 ∈ l := by rw [hdec]; simp
  have hp1mem : p1 ∈ l := by rw [hdec]; simp
  have hhead : ¬ get_business_days (max vd cur) md ≤ (l.head hne).days :=
    Nat.not_le.mpr (Nat.lt_of_le_of_lt (head_days_le_mem l hne hsort p0 hp0mem) h0)
  have hlast : ¬ (l.getLast hne).days ≤ get_business_days (max vd cur) md :=
    Nat.not_le.mpr (Nat.lt_of_lt_of_le h1 (days_le_getLast l hne hsort p1 hp1mem))
  rw [interpolate_unfold hl vd cur md hmd' hne, sortPoints_eq_of_sorted hsort, hcalc]
  simp only [interpolateCore, List.head?_eq_head hne, List.getLast?_eq_getLast _ hne]
  rw [if_neg hhead, if_neg hlast]
  have hpre : ∀ q ∈ pre, q.days ≤ p0.days := by
    intro q hq
    have h := (List.pairwise_append.mp (hdec ▸ hsort)).2.2
    exact h q hq p0 (by simp)
  calc findBracket (get_business_days (max vd cur) md) l
      = findBracket (get_business_days (max vd cur) md) (pre ++ p0 :: p1 :: post) := by
        rw [hdec]
    _ = _ := findBracket_skip _ p0 p1 post h0 (Nat.le_of_lt h1) pre hpre

/-- C2 witness: the curve with samples at horizons 30 (mid 10) and 90
(mid 20), maturity 84 calendar days out of a Monday computation date
(60 business days), interpolates to 15. -/
theorem interpolate_linear_witness :
    interpolate [("EURUSD", [⟨"1M", 30, 10, 10⟩, ⟨"3M", 90, 20, 20⟩])]
      "EURUSD" 0 (some 84) 0 = some 15 := by
  rw [interpolate_linear [("EURUSD", [⟨"1M", 30, 10, 10⟩, ⟨"3M", 90, 20, 20⟩])]
    "EURUSD" 0 0 84 [⟨"1M", 30, 10, 10⟩, ⟨"3M", 90, 20, 20⟩] [] []
    ⟨"1M", 30, 10, 10⟩ ⟨"3M", 90, 20, 20⟩ rfl (by decide) rfl (by decide)
    (by decide) (by decide)]
  have h : get_business_days (max 0 0) 84 = 60 := by decide
  rw [h]
  unfold linear_interp_formula
  norm_num

/-- C3: for a known pair with a non-empty curve sorted strictly
ascending by horizon, a target horizon at or below the first sample's
horizon returns the first sample's mid unchanged, and a target horizon
at or above the last sample's horizon returns the last sample's mid
unchanged. -/
theorem interpolate_flat_clamp (store : Store) (pair : String) (vd cur md : Nat)
    (l : List CurvePoint) (hl : lookupPair store pair = some l) (hne : l ≠ [])
    (hsort : List.Sorted (fun p q : CurvePoint => p.days < q.days) l)
    (hmd : max vd cur < md) :
    (get_business_days (max vd cur) md ≤ (l.head hne).days →
      interpolate store pair vd (some md) cur = some (l.head hne).avg_points)
    ∧ ((l.getLast hne).days ≤ get_business_days (max vd cur) md →
      interpolate store pair vd (some md) cur = some (l.getLast hne).avg_points) := by
  have hsortLE : List.Sorted daysLE l :=
    List.Pairwise.imp (fun h => Nat.le_of_lt h) hsort
  have hcalc : calcDate vd cur = max vd cur := calcDate_eq_max vd cur
  have hmd' : ¬ md ≤ calcDate vd cur := by rw [hcalc]; exact Nat.not_le.mpr hmd
  rw [interpolate_unfold hl vd cur md hmd' hne, sortPoints_eq_of_sorted hsortLE, hcalc]
  simp only [interpolateCore, List.head?_eq_head hne, List.getLast?_eq_getLast _ hne]
  constructor
  · intro h
    rw [if_pos h]
  · intro h
    by_cases hh : get_business_days (max vd cur) md ≤ (l.head hne).days
    · rw [if_pos hh]
      cases l with
      | nil => exact absurd rfl hne
      | cons a t =>
        cases t with
        | nil => rfl
        | cons b t' =>
          exfalso
          have ha : ∀ x ∈ b :: t', a.days < x.days := (List.sorted_cons.mp hsort).1
          have hlast_mem : (b :: t').getLast (List.cons_ne_nil b t') ∈ b :: t' :=
            List.getLast_mem _
          have h1 : a.days < ((a :: b :: t').getLast hne).days := by
            rw [List.getLast_cons (List.cons_ne_nil b t')]
            exact ha _ hlast_mem
          have h2 : ((a :: b :: t').getLast hne).days ≤ a.days := by
            have := Nat.le_trans h hh
            simpa using this
          omega
    · rw [if_neg hh, if_pos h]

set_option maxRecDepth 4000 in
/-- C3 witness: with samples at horizons 30 (mid 10) and 90 (mid 20), a
3-business-day target clamps to 10 and a 90-business-day target clamps
to 20. -/
theorem interpolate_flat_clamp_witness :
    interpolate [("EURUSD", [⟨"1M", 30, 10, 10⟩, ⟨"3M", 90, 20, 20⟩])]
      "EURUSD" 0 (some 3) 0 = some 10
    ∧ interpolate [("EURUSD", [⟨"1M", 30, 10, 10⟩, ⟨"3M", 90, 20, 20⟩])]
      "EURUSD" 0 (some 126) 0 = some 20 :=
  ⟨(interpolate_flat_clamp [("EURUSD", [⟨"1M", 30, 10, 10⟩, ⟨"3M", 90, 20, 20⟩])]
      "EURUSD" 0 0 3 [⟨"1M", 30, 10, 10⟩, ⟨"3M", 90, 20, 20⟩] rfl (by decide)
      (by decide) (by decide)).1 (by decide),
   (interpolate_flat_clamp [("EURUSD", [⟨"1M", 30, 10, 10⟩, ⟨"3M", 90, 20, 20⟩])]
      "EURUSD" 0 0 126 [⟨"1M", 30, 10, 10⟩, ⟨"3M", 90, 20, 20⟩] rfl (by decide)
      (by decide) (by decide)).2 (by decide)⟩

theorem roundHalfUp_eq_floor (q : ℚ) (h : 0 ≤ q) : roundHalfUp q = ⌊q + 1 / 2⌋ := by
  unfold roundHalfUp
  rw [if_neg (not_lt.mpr h)]
  have hnum : ((q.num.natAbs : ℚ)) = (q.num : ℚ) := by
    rw [Int.cast_natAbs]
    exact_mod_cast abs_of_nonneg (Rat.num_nonneg.mpr h)
  have hden : ((q.den : ℚ)) ≠ 0 := Nat.cast_ne_zero.mpr (Rat.den_ne_zero q)
  have key : q + 1 / 2 = ((2 * q.num.natAbs + q.den : ℕ) : ℚ) / ((2 * q.den : ℕ) : ℚ) := by
    conv_lhs => rw [← Rat.num_div_den q]
    push_cast
    rw [hnum]
    field_simp
    ring
  rw [key, Rat.floor_natCast_div_natCast]
  exact Int.natCast_div _ _


theorem swap_cashflows_eq (today : Nat) (interpO : Option Store) (t : Trade)
    (vd md : Nat) (h1 : t.amount1 ≠ 0) (h2 : t.valueDate = some vd)
    (h3 : t.matDate = some md) :
    calculate_swap_cashflows today interpO t =
      [⟨vd, (parse_pair t.security).1,
        normalize_cashflow (parse_pair t.security).1 t.amount1, t.dealId, "FX Swap - Near"⟩,
       ⟨vd, (parse_pair t.security).2,
        normalize_cashflow (parse_pair t.security).2 t.amount2, t.dealId, "FX Swap - Near"⟩,
       ⟨md, (parse_pair t.security).1,
        normalize_cashflow (parse_pair t.security).1 (-t.amount1), t.dealId, "FX Swap - Far"⟩,
       ⟨md, (parse_pair t.security).2,
        normalize_cashflow (parse_pair t.security).2
          (t.amount1 * (|t.amount2 / t.amount1| +
            ((interpO.bind fun store =>
                interpolate store t.security vd (some md) today).getD t.ratePrice) /
              (points_divisor_by_pair t.security : ℚ))), t.dealId, "FX Swap - Far"⟩] := by
  unfold calculate_swap_cashflows
  rw [h2, h3]
  simp only [if_neg h1]
  cases interpO with
  | none => rfl
  | some store =>
    cases hI : interpolate store t.security vd (some md) today with
    | none => simp [hI]
    | some c => simp [hI]

/-- C1 (amended): an FX Swap trade with `amount1 ≠ 0` and both dates
present emits exactly four entries — near leg at the value date (base
`amount1`, quote `amount2`, legType "FX Swap - Near") and far leg at
the maturity date (base `-amount1`, quote `amount1 * farRate`, legType
"FX Swap - Far"), where `farRate = |amount2 / amount1| + p / divisor`
with `p` the interpolated points when interpolation succeeds and
otherwise the trade's contracted `ratePrice` — except that every
emitted amount first passes through `normalize_cashflow`: amounts in
JPY are rounded half-up to whole units rather than emitted unchanged. -/
theorem swap_cashflows_shape (today : Nat) (interpO : Option Store) (t : Trade)
    (vd md : Nat) (h1 : t.amount1 ≠ 0) (h2 : t.valueDate = some vd)
    (h3 : t.matDate = some md) :
    calculate_swap_cashflows today interpO t =
      [⟨vd, (parse_pair t.security).1,
        normalize_cashflow (parse_pair t.security).1 t.amount1, t.dealId, "FX Swap - Near"⟩,
       ⟨vd, (parse_pair t.security).2,
        normalize_cashflow (parse_pair t.security).2 t.amount2, t.dealId, "FX Swap - Near"⟩,
       ⟨md, (parse_pair t.security).1,
        normalize_cashflow (parse_pair t.security).1 (-t.amount1), t.dealId, "FX Swap - Far"⟩,
       ⟨md, (parse_pair t.security).2,
        normalize_cashflow (parse_pair t.security).2
          (t.amount1 * (|t.amount2 / t.amount1| +
            ((interpO.bind fun store =>
                interpolate store t.security vd (some md) today).getD t.ratePrice) /
              (points_divisor_by_pair t.security : ℚ))), t.dealId, "FX Swap - Far"⟩] :=
  swap_cashflows_eq today interpO t vd md h1 h2 h3

/-- The C1 counterexample trade: an FX Swap whose quote currency is JPY
with fractional quote-side amounts, so the emitted entries are rounded. -/
def swapTradeJPY : Trade :=
  ⟨"T1", "FX Swap", "USD/JPY", 2, 1 / 2, some 0, some 1, 1⟩

/-- C1 counterexample: for this FX Swap trade the four emitted amounts
are `[2, 1, -2, 1]`, although `amount2 = 1/2` and
`amount1 × farRate = 2501/5000`: the JPY-denominated near and far quote
entries are rounded to whole units, so the near quote entry is not
`amount2` and the far quote entry is not `amount1 × farRate`. -/
theorem swap_cashflows_cex :
    (calculate_swap_cashflows 0 none swapTradeJPY).map CashflowEntry.cashflow
      = [2, 1, -2, 1]
    ∧ swapTradeJPY.amount2 = 1 / 2 ∧ ((1 : ℚ) ≠ 1 / 2)
    ∧ swapTradeJPY.amount1 *
        (|swapTradeJPY.amount2 / swapTradeJPY.amount1| +
          swapTradeJPY.ratePrice / (points_divisor_by_pair swapTradeJPY.security : ℚ))
        = 2501 / 5000
    ∧ ((1 : ℚ) ≠ 2501 / 5000) := by
  have hp : parse_pair "USD/JPY" = ("USD", "JPY") := by decide
  have hdiv : points_divisor_by_pair "USD/JPY" = 10000 := by decide
  refine ⟨?_, rfl, by norm_num, ?_, by norm_num⟩
  · have hshape := swap_cashflows_eq 0 none swapTradeJPY 0 1
      (by norm_num [swapTradeJPY]) rfl rfl
    rw [hshape]
    simp only [swapTradeJPY, hp, hdiv, List.map, Option.bind]
    rw [show |(1 : ℚ)/2/2| = 1/4 from by rw [abs_of_nonneg] <;> norm_num]
    simp only [Option.getD_none, normalize_cashflow,
      if_neg (by decide : ¬ ("USD" = "JPY")), if_pos rfl]
    rw [roundHalfUp_eq_floor (1/2 : ℚ) (by norm_num),
      roundHalfUp_eq_floor _ (by positivity)]
    norm_num
  · show (2 : ℚ) * (|(1 : ℚ) / 2 / 2| + 1 / (points_divisor_by_pair "USD/JPY" : ℚ))
        = 2501 / 5000
    rw [hdiv, show |(1 : ℚ)/2/2| = 1/4 from by rw [abs_of_nonneg] <;> norm_num]
    norm_num

/-- C1 witness: the amended statement at a concrete non-JPY FX Swap
with no interpolator, fully evaluated. -/
theorem swap_cashflows_shape_witness :
    calculate_swap_cashflows 0 none ⟨"W1", "FX Swap", "USD/CNY", 4, -2, some 0, some 7, 3⟩ =
      [⟨0, "USD", 4, "W1", "FX Swap - Near"⟩,
       ⟨0, "CNY", -2, "W1", "FX Swap - Near"⟩,
       ⟨7, "USD", -4, "W1", "FX Swap - Far"⟩,
       ⟨7, "CNY", 4 * (1/2 + 3/10000), "W1", "FX Swap - Far"⟩] := by
  rw [swap_cashflows_shape 0 none _ 0 7 (by norm_num) rfl rfl]
  have hp : parse_pair "USD/CNY" = ("USD", "CNY") := by decide
  have hdiv : points_divisor_by_pair "USD/CNY" = 10000 := by decide
  simp only [hp, hdiv, normalize_cashflow, if_neg (by decide : ¬ ("USD" = "JPY")),
    if_neg (by decide : ¬ ("CNY" = "JPY")), Option.bind, Option.getD_none]
  rw [show |(-2 : ℚ)/4| = 1/2 from by rw [abs_of_nonpos] <;> norm_num]
  norm_num

/-- The C7 counterexample trade: an FX Swap with valid dates and
non-zero notional whose pair is unknown to the (empty) curve store. -/
def swapTradeNoCurve : Trade :=
  ⟨"T3", "FX Swap", "EUR/USD", 1, -1, some 0, some 5, 2⟩

/-- C7 counterexample: interpolation fails for this trade, yet the
per-currency P&L accumulation contains a zero entry for the trade's
quote currency — the trade does contribute a key to the map. -/
theorem pnl_zero_entry_cex :
    interpolate [] "EUR/USD" 0 (some 5) 0 = none
    ∧ accumulate_pnl 0 (some []) [swapTradeNoCurve] = [("USD", 0)] :=
  ⟨rfl, by decide⟩

/-- C7 (amended): for an FX Swap trade with both dates present and
non-zero notional for which interpolation returns `none`,
`calculate_pnl` returns a zero P&L entry for the quote currency (the
dict is non-empty), and the accumulation of `main` therefore inserts a
zero under the quote-currency key rather than skipping the trade. -/
theorem pnl_zero_entry (today : Nat) (store : Store) (t : Trade) (vd md : Nat)
    (h1 : t.valueDate = some vd) (h2 : t.matDate = some md) (h3 : t.amount1 ≠ 0)
    (h4 : interpolate store t.security vd (some md) today = none) :
    calculate_pnl today (some store) t = some ⟨(parse_pair t.security).2, 0⟩
    ∧ (pyStrip t.dealType = "FX Swap" →
        accumulate_pnl today (some store) [t] = [((parse_pair t.security).2, 0)]) := by
  have hp : calculate_pnl today (some store) t = some ⟨(parse_pair t.security).2, 0⟩ := by
    unfold calculate_pnl
    rw [h1, h2]
    simp only [if_neg h3, h4]
  refine ⟨hp, fun hft => ?_⟩
  unfold accumulate_pnl
  simp only [List.foldl, if_pos hft, hp]
  rfl

/-- C7 witness: the amended statement at a concrete trade with an empty
curve store. -/
theorem pnl_zero_entry_witness :
    calculate_pnl 0 (some []) ⟨"W4", "FX Swap", "EUR/CNY", 2, -3, some 1, some 6, 1⟩
      = some ⟨"CNY", 0⟩
    ∧ accumulate_pnl 0 (some []) [⟨"W4", "FX Swap", "EUR/CNY", 2, -3, some 1, some 6, 1⟩]
      = [("CNY", 0)] := by
  have h := pnl_zero_entry 0 [] ⟨"W4", "FX Swap", "EUR/CNY", 2, -3, some 1, some 6, 1⟩
    1 6 rfl rfl (by norm_num) rfl
  exact ⟨h.1, h.2 (by decide)⟩

/-- C8 counterexample trade: a Spot trade with zero notional and a
value date. -/
def spotTradeZero : Trade :=
  ⟨"T2", "Spot", "EUR/USD", 0, 5, some 0, none, 0⟩

/-- C8 counterexample: a zero-notional Spot trade with a value date
still emits its two entries (one of them with amount 0), so zero
notional does not suppress entries for every deal type. -/
theorem zero_notional_cex :
    spotTradeZero.amount1 = 0
    ∧ calculate_spot_cashflows spotTradeZero =
        [⟨0, "EUR", 0, "T2", "Spot"⟩, ⟨0, "USD", 5, "T2", "Spot"⟩] :=
  ⟨rfl, by decide⟩

/-- C8 (amended): zero notional suppresses entries only for FX Swap
trades; a Spot (resp. Outright Forward) trade contributes no entries
exactly when its value (resp. maturity) date is absent, and a
zero-notional Spot or Forward trade whose required date is present
still emits its two entries. -/
theorem zero_notional_skip (today : Nat) (interpO : Option Store) (t : Trade) :
    (t.amount1 = 0 → calculate_swap_cashflows today interpO t = [])
    ∧ (t.valueDate = none → calculate_spot_cashflows t = [])
    ∧ (t.matDate = none → calculate_forward_cashflows t = [])
    ∧ (∀ vd, t.valueDate = some vd → t.amount1 = 0 →
        (calculate_spot_cashflows t).length = 2)
    ∧ (∀ md, t.matDate = some md → t.amount1 = 0 →
        (calculate_forward_cashflows t).length = 2) := by
  refine ⟨?_, ?_, ?_, ?_, ?_⟩
  · intro h
    unfold calculate_swap_cashflows
    cases hv : t.valueDate <;> cases hm : t.matDate <;> simp [h]
  · intro h
    unfold calculate_spot_cashflows
    rw [h]
  · intro h
    unfold calculate_forward_cashflows
    rw [h]
  · intro vd h _
    unfold calculate_spot_cashflows
    rw [h]
    rfl
  · intro md h _
    unfold calculate_forward_cashflows
    rw [h]
    rfl

/-- C8 witness: a zero-notional FX Swap contributes nothing while a
zero-notional Spot with a value date still emits two entries. -/
theorem zero_notional_skip_witness :
    calculate_swap_cashflows 0 none ⟨"W2", "FX Swap", "EUR/USD", 0, 5, some 0, some 1, 0⟩ = []
    ∧ (calculate_spot_cashflows ⟨"W3", "Spot", "EUR/USD", 0, 5, some 0, none, 0⟩).length = 2 :=
  ⟨(zero_notional_skip 0 none _).1 rfl,
   (zero_notional_skip 0 none _).2.2.2.1 0 rfl rfl⟩

/-- C9 counterexample: the same base-JPY pair in its two accepted
spellings gets different divisors — "JPY/CNY" yields 1,000,000 but the
concatenated "JPYCNY" yields 10,000; moreover the bare string "JPY" is
base-JPY by the code's own `is_jpy_base` yet also yields 10,000.  So
the divisor is not 1,000,000 for every pair whose base currency is
JPY. -/
theorem divisor_cex :
    points_divisor_by_pair "JPY/CNY" = 1000000
    ∧ points_divisor_by_pair "JPYCNY" = 10000
    ∧ points_divisor_by_pair "JPY" = 10000
    ∧ is_jpy_base "JPY" = true :=
  ⟨by decide, by decide, by decide, by decide⟩

/-- C9 (amended): the divisor is 1,000,000 exactly when the pair string
contains a '/' and the segment before the first '/' strips and
upper-cases to "JPY"; every other string — in particular every
concatenated pair such as "JPYCNY", even though its base currency is
JPY — gets 10,000, and no other value ever occurs. -/
theorem divisor_characterization (pair : String) :
    (points_divisor_by_pair pair = 1000000 ↔
      (pyContains pair '/' = true
        ∧ pyStrip (pyUpper ((pySplitChar '/' pair).headD "")) = "JPY"))
    ∧ (points_divisor_by_pair pair = 1000000 ∨ points_divisor_by_pair pair = 10000) := by
  unfold points_divisor_by_pair
  constructor
  · constructor
    · intro h
      by_cases h1 : pair = "" ∨ pyContains pair '/' = false
      · rw [if_pos h1] at h
        exact absurd h (by norm_num)
      · rw [if_neg h1] at h
        push_neg at h1
        refine ⟨by simpa using h1.2, ?_⟩
        by_cases h2 : pyStrip (pyUpper ((pySplitChar '/' pair).headD "")) = "JPY"
        · exact h2
        · rw [if_neg h2] at h
          exact absurd h (by norm_num)
    · rintro ⟨hc, hj⟩
      have h1 : ¬ (pair = "" ∨ pyContains pair '/' = false) := by
        rintro (rfl | hf)
        · exact absurd hc (by decide)
        · rw [hf] at hc
          cases hc
      rw [if_neg h1, if_pos hj]
  · by_cases h1 : pair = "" ∨ pyContains pair '/' = false
    · right
      rw [if_pos h1]
    · rw [if_neg h1]
      by_cases h2 : pyStrip (pyUpper ((pySplitChar '/' pair).headD "")) = "JPY"
      · left
        rw [if_pos h2]
      · right
        rw [if_neg h2]

theorem upsertAgg_snd_sum (m : List ((Nat × String) × ℚ)) (k : Nat × String) (v : ℚ) :
    ((upsertAgg m k v).map Prod.snd).sum = (m.map Prod.snd).sum + v := by
  induction m with
  | nil => simp [upsertAgg]
  | cons e rest ih =>
    obtain ⟨k', v'⟩ := e
    unfold upsertAgg
    by_cases h : k' = k
    · rw [if_pos h]
      simp only [List.map, List.sum_cons]
      ring
    · rw [if_neg h]
      simp only [List.map, List.sum_cons, ih]
      ring

theorem aggregate_foldl_sum (cfs : List CashflowEntry) : ∀ acc,
    ((cfs.foldl (fun agg cf => upsertAgg agg (cf.date, cf.currency) cf.cashflow) acc).map
        Prod.snd).sum
      = (acc.map Prod.snd).sum + (cfs.map CashflowEntry.cashflow).sum := by
  induction cfs with
  | nil =>
    intro acc
    simp
  | cons cf rest ih =>
    intro acc
    simp only [List.foldl, List.map, List.sum_cons]
    rw [ih, upsertAgg_snd_sum]
    ring

/-- C10: for every list of cashflow entries, the sum over all
`(date, currency)` keys of the aggregated amounts equals the exact sum
of all input entries' amounts, with no intermediate rounding. -/
theorem aggregate_sum_roundtrip (cashflows : List CashflowEntry) :
    ((aggregate_cashflows cashflows).map Prod.snd).sum
      = (cashflows.map CashflowEntry.cashflow).sum := by
  unfold aggregate_cashflows
  rw [aggregate_foldl_sum]
  simp
